import Mathlib

/-!
Verification of the multirate Sym4 wavelet filter-bank engine of
`script/a171_error_analysis.py` (analysis stages `dec_L1` … `dec_L7`,
synthesis stages `res_L7` … `res_L1`) and of the fixed-point
quantization layer of `script/coff_data_conver.py` / `str2dec`.

Samples are modelled as rationals; numpy slicing `data[a:b]` is `sl`,
`np.sum(window[::-1] * h)` is `dotRev`, Python stride slicing `h[::2]`
is `everyOther`.
-/

/-- numpy slice `xs[a:b]` (clamping, as numpy does). -/
def sl (xs : List ℚ) (a b : ℕ) : List ℚ := (xs.drop a).take (b - a)

/-- Windowed dot product np.sum(window[::-1] * h): reverse the window, multiply pointwise
with the coefficients, and sum. -/
def dotRev (w g : List ℚ) : ℚ := (List.zipWith (fun a b => a * b) w.reverse g).sum

/-- Python stride slice `xs[::2]` (every second element from offset 0). -/
def everyOther : List ℚ → List ℚ
  | [] => []
  | [a] => [a]
  | a :: _ :: rest => a :: everyOther rest

/-- The last `n` samples of a list. -/
def lastN (n : ℕ) (xs : List ℚ) : List ℚ := xs.drop (xs.length - n)

/-- Sym4 decomposition low-pass coefficients `h_dec`
(`a171_error_analysis.py`, lines 15–18). -/
def hDec : List ℚ :=
  [-0.07576571478927333, -0.02963552764599851, 0.49761866763201545, 0.80373875180591614,
    0.29785779560527736, -0.09921954357684722, -0.012603967262037833, 0.032223100604042759]

/-- Reconstruction filter `h_res = h_dec[::-1]` (`a171_error_analysis.py`, line 444). -/
def hRes : List ℚ := hDec.reverse

/-- Body of one `dec_L1` loop iteration (lines 46–54): form
`combined = x_hist ++ din`, emit 8 windowed convolutions at even
offsets, update the history to `din[9:16]`. State is `(x_hist, res)`. -/
def dec_L1_step (g : List ℚ) (st : List ℚ × List ℚ) (din : List ℚ) : List ℚ × List ℚ :=
  let combined := st.1 ++ din
  (sl din 9 16,
    st.2 ++ (List.range 8).map (fun k => dotRev (sl combined (k * 2) (k * 2 + g.length)) g))

/-- Stage `dec_L1` (lines 37–55): block size 16, history seeded with
`data[9:16]`, loop from block 1. -/
def dec_L1 (data g : List ℚ) : List ℚ :=
  (((List.range (data.length / 16)).drop 1).foldl
    (fun st i => dec_L1_step g st (sl data (i * 16) ((i + 1) * 16)))
    (sl data 9 16, [])).2

/-- Body of one `dec_L2` loop iteration (lines 66–74). -/
def dec_L2_step (g : List ℚ) (st : List ℚ × List ℚ) (din : List ℚ) : List ℚ × List ℚ :=
  let combined := st.1 ++ din
  (sl din 1 8,
    st.2 ++ (List.range 4).map (fun k => dotRev (sl combined (k * 2) (k * 2 + g.length)) g))

/-- Stage `dec_L2` (lines 58–75): block size 8, history `data[1:8]`, loop from block 1. -/
def dec_L2 (data g : List ℚ) : List ℚ :=
  (((List.range (data.length / 8)).drop 1).foldl
    (fun st i => dec_L2_step g st (sl data (i * 8) ((i + 1) * 8)))
    (sl data 1 8, [])).2

/-- Body of one `dec_L3` loop iteration (lines 83–93): history update is
`combined[4:11]`. -/
def dec_L3_step (g : List ℚ) (st : List ℚ × List ℚ) (din : List ℚ) : List ℚ × List ℚ :=
  let combined := st.1 ++ din
  (sl combined 4 11,
    st.2 ++ (List.range 2).map (fun k => dotRev (sl combined (k * 2) (k * 2 + g.length)) g))

/-- Stage `dec_L3` (lines 78–95): block size 4, history `data[1:8]`, loop from block 2. -/
def dec_L3 (data g : List ℚ) : List ℚ :=
  (((List.range (data.length / 4)).drop 2).foldl
    (fun st i => dec_L3_step g st (sl data (i * 4) ((i + 1) * 4)))
    (sl data 1 8, [])).2

/-- Body of one `dec_L4` loop iteration (lines 105–118): history update
`combined[2:9]`. -/
def dec_L4_step (g : List ℚ) (st : List ℚ × List ℚ) (din : List ℚ) : List ℚ × List ℚ :=
  let combined := st.1 ++ din
  (sl combined 2 9,
    st.2 ++ (List.range 1).map (fun k => dotRev (sl combined (k * 2) (k * 2 + g.length)) g))

/-- Stage `dec_L4` (lines 98–120): block size 2, history `data[1:8]`, loop from block 4. -/
def dec_L4 (data g : List ℚ) : List ℚ :=
  (((List.range (data.length / 2)).drop 4).foldl
    (fun st i => dec_L4_step g st (sl data (i * 2) ((i + 1) * 2)))
    (sl data 1 8, [])).2

/-- Initial `dec_L5` state (lines 126–127): history `data[0:7]`,
phase 0, empty output. State is `(x_hist, phase, res)`. -/
def dec_L5_init (data : List ℚ) : List ℚ × ℕ × List ℚ := (sl data 0 7, 0, [])

/-- Body of one `dec_L5` loop iteration (lines 130–144): toggle the
phase, then emit one output only in the active phase (phase = 1), and
update the history to `combined[1:8]`. -/
def dec_L5_step (g : List ℚ) (st : List ℚ × ℕ × List ℚ) (din : List ℚ) : List ℚ × ℕ × List ℚ :=
  let phase : ℕ := if st.2.1 = 0 then 1 else 0
  let combined := st.1 ++ din
  (sl combined 1 8, phase,
    if phase = 1 then
      st.2.2 ++ (List.range 1).map (fun k => dotRev (sl combined (k * 2) (k * 2 + g.length)) g)
    else st.2.2)

/-- Stage `dec_L5` (lines 122–147): block size 1, loop from cycle 7. -/
def dec_L5 (data g : List ℚ) : List ℚ :=
  (((List.range (data.length / 1)).drop 7).foldl
    (fun st i => dec_L5_step g st (sl data (i * 1) ((i + 1) * 1)))
    (dec_L5_init data)).2.2

/-- Initial `dec_L6` state (lines 153–154). -/
def dec_L6_init (data : List ℚ) : List ℚ × ℕ × List ℚ := (sl data 0 7, 0, [])

/-- Body of one `dec_L6` loop iteration (lines 156–170). -/
def dec_L6_step (g : List ℚ) (st : List ℚ × ℕ × List ℚ) (din : List ℚ) : List ℚ × ℕ × List ℚ :=
  let phase : ℕ := if st.2.1 = 0 then 1 else 0
  let combined := st.1 ++ din
  (sl combined 1 8, phase,
    if phase = 1 then
      st.2.2 ++ (List.range 1).map (fun k => dotRev (sl combined (k * 2) (k * 2 + g.length)) g)
    else st.2.2)

/-- Stage `dec_L6` (lines 149–172). -/
def dec_L6 (data g : List ℚ) : List ℚ :=
  (((List.range (data.length / 1)).drop 7).foldl
    (fun st i => dec_L6_step g st (sl data (i * 1) ((i + 1) * 1)))
    (dec_L6_init data)).2.2

/-- Initial `dec_L7` state (lines 178–179). -/
def dec_L7_init (data : List ℚ) : List ℚ × ℕ × List ℚ := (sl data 0 7, 0, [])

/-- Body of one `dec_L7` loop iteration (lines 181–195). -/
def dec_L7_step (g : List ℚ) (st : List ℚ × ℕ × List ℚ) (din : List ℚ) : List ℚ × ℕ × List ℚ :=
  let phase : ℕ := if st.2.1 = 0 then 1 else 0
  let combined := st.1 ++ din
  (sl combined 1 8, phase,
    if phase = 1 then
      st.2.2 ++ (List.range 1).map (fun k => dotRev (sl combined (k * 2) (k * 2 + g.length)) g)
    else st.2.2)

/-- Stage `dec_L7` (lines 174–197). -/
def dec_L7 (data g : List ℚ) : List ℚ :=
  (((List.range (data.length / 1)).drop 7).foldl
    (fun st i => dec_L7_step g st (sl data (i * 1) ((i + 1) * 1)))
    (dec_L7_init data)).2.2

/-- Body of one `res_L7` loop iteration (lines 308–316): 4-sample
window = 3-sample history plus the current sample; append the
even-half-filter output then the odd-half-filter output; history
becomes `window[1:4]`. State is `(x_hist, res)`. -/
def res_L7_step (g : List ℚ) (st : List ℚ × List ℚ) (din : ℚ) : List ℚ × List ℚ :=
  let window := st.1 ++ [din]
  (sl window 1 4, st.2 ++ [dotRev window (everyOther g), dotRev window (everyOther g.tail)])

/-- Stage `res_L7` (lines 300–317): block size 1, history `data[0:3]`, loop from cycle 3. -/
def res_L7 (data g : List ℚ) : List ℚ :=
  (((List.range (data.length / 1)).drop 3).foldl
    (fun st i => res_L7_step g st (data.getD i 0))
    (sl data 0 3, [])).2

/-- Body of one `res_L6` loop iteration (lines 327–334). -/
def res_L6_step (g : List ℚ) (st : List ℚ × List ℚ) (din : ℚ) : List ℚ × List ℚ :=
  let window := st.1 ++ [din]
  (sl window 1 4, st.2 ++ [dotRev window (everyOther g), dotRev window (everyOther g.tail)])

/-- Stage `res_L6` (lines 319–335). -/
def res_L6 (data g : List ℚ) : List ℚ :=
  (((List.range (data.length / 1)).drop 3).foldl
    (fun st i => res_L6_step g st (data.getD i 0))
    (sl data 0 3, [])).2

/-- Body of one `res_L5` loop iteration (lines 345–352). -/
def res_L5_step (g : List ℚ) (st : List ℚ × List ℚ) (din : ℚ) : List ℚ × List ℚ :=
  let window := st.1 ++ [din]
  (sl window 1 4, st.2 ++ [dotRev window (everyOther g), dotRev window (everyOther g.tail)])

/-- Stage `res_L5` (lines 337–353). -/
def res_L5 (data g : List ℚ) : List ℚ :=
  (((List.range (data.length / 1)).drop 3).foldl
    (fun st i => res_L5_step g st (data.getD i 0))
    (sl data 0 3, [])).2

/-- Body of one `res_L4` loop iteration (lines 363–370). -/
def res_L4_step (g : List ℚ) (st : List ℚ × List ℚ) (din : ℚ) : List ℚ × List ℚ :=
  let window := st.1 ++ [din]
  (sl window 1 4, st.2 ++ [dotRev window (everyOther g), dotRev window (everyOther g.tail)])

/-- Stage `res_L4` (lines 355–371). -/
def res_L4 (data g : List ℚ) : List ℚ :=
  (((List.range (data.length / 1)).drop 3).foldl
    (fun st i => res_L4_step g st (data.getD i 0))
    (sl data 0 3, [])).2

/-- Body of one `res_L3` per-sample inner iteration (lines 381–391): the
two `k` iterations share the same window and select the even / odd
half-filter in turn. -/
def res_L3_sampleStep (g : List ℚ) (st : List ℚ × List ℚ) (din : ℚ) : List ℚ × List ℚ :=
  let window := st.1 ++ [din]
  (sl window 1 4,
    st.2 ++ (List.range 2).map (fun k =>
      dotRev window (if k = 0 then everyOther g else everyOther g.tail)))

/-- Stage `res_L3` (lines 373–392): block size 2, history `data[1:4]`, loop from block 2. -/
def res_L3 (data g : List ℚ) : List ℚ :=
  (((List.range (data.length / 2)).drop 2).foldl
    (fun st i => (List.range 2).foldl
      (fun st2 j => res_L3_sampleStep g st2 (data.getD (i * 2 + j) 0)) st)
    (sl data 1 4, [])).2

/-- Body of one `res_L2` per-sample inner iteration (lines 401–411). -/
def res_L2_sampleStep (g : List ℚ) (st : List ℚ × List ℚ) (din : ℚ) : List ℚ × List ℚ :=
  let window := st.1 ++ [din]
  (sl window 1 4,
    st.2 ++ (List.range 2).map (fun k =>
      dotRev window (if k = 0 then everyOther g else everyOther g.tail)))

/-- Stage `res_L2` (lines 394–412): block size 4, history `data[1:4]`, loop from block 1. -/
def res_L2 (data g : List ℚ) : List ℚ :=
  (((List.range (data.length / 4)).drop 1).foldl
    (fun st i => (List.range 4).foldl
      (fun st2 j => res_L2_sampleStep g st2 (data.getD (i * 4 + j) 0)) st)
    (sl data 1 4, [])).2

/-- Body of one `res_L1` per-sample inner iteration (lines 421–431). -/
def res_L1_sampleStep (g : List ℚ) (st : List ℚ × List ℚ) (din : ℚ) : List ℚ × List ℚ :=
  let window := st.1 ++ [din]
  (sl window 1 4,
    st.2 ++ (List.range 2).map (fun k =>
      dotRev window (if k = 0 then everyOther g else everyOther g.tail)))

/-- Stage `res_L1` (lines 414–432): block size 8, history `data[5:8]`, loop from block 1. -/
def res_L1 (data g : List ℚ) : List ℚ :=
  (((List.range (data.length / 8)).drop 1).foldl
    (fun st i => (List.range 8).foldl
      (fun st2 j => res_L1_sampleStep g st2 (data.getD (i * 8 + j) 0)) st)
    (sl data 5 8, [])).2

/-- Python `round` — round to nearest, ties to even — as used by
`int(round(val * SCALE_FACTOR))` in `coff_data_conver.py`, line 27. -/
def pyRound (q : ℚ) : ℤ :=
  if Int.fract q < 1 / 2 then ⌊q⌋
  else if 1 / 2 < Int.fract q then ⌊q⌋ + 1
  else if ⌊q⌋ % 2 = 0 then ⌊q⌋ else ⌊q⌋ + 1

/-- Fixed-point quantization (`coff_data_conver.py`, lines 27–29):
`int_val = int(round(val * 2^fracBits)); twos_comp = int_val & MASK`,
the mask reduction being reduction modulo `2^totalBits`. -/
def quantize (fracBits totalBits : ℕ) (x : ℚ) : ℤ :=
  pyRound (x * 2 ^ fracBits) % (2 ^ totalBits : ℤ)

/-- Function `str2dec` (`a171_error_analysis.py`, lines 234–238) on the parsed
integer value: reinterpret a `shiftNum`-bit pattern as signed
two's-complement. -/
def str2dec (v : ℤ) (shiftNum : ℕ) : ℤ :=
  if 2 ^ (shiftNum - 1) ≤ v then v - 2 ^ shiftNum else v

/-- Dequantization as at the `str2dec(p) / (2**COEF_FRAC)` call sites
(`a171_error_analysis.py`, line 252): signed reinterpretation followed
by division by `2^fracBits`. -/
def dequantize (fracBits totalBits : ℕ) (v : ℤ) : ℚ :=
  (str2dec v totalBits : ℚ) / 2 ^ fracBits

/-- The all-zero test input of length 16 × 100. -/
def zeroInput : List ℚ := List.replicate (16 * 100) 0

/-- Analysis cascade on the zero input (source lines 203–228). -/
def a1Zero : List ℚ := dec_L1 zeroInput hDec

def a2Zero : List ℚ := dec_L2 a1Zero hDec

def a3Zero : List ℚ := dec_L3 a2Zero hDec

def a4Zero : List ℚ := dec_L4 a3Zero hDec

def a5Zero : List ℚ := dec_L5 a4Zero hDec

def a6Zero : List ℚ := dec_L6 a5Zero hDec

def a7Zero : List ℚ := dec_L7 a6Zero hDec

/-- Synthesis cascade on the zero input (source lines 446–464). -/
def r6Zero : List ℚ := res_L7 a7Zero hRes

def r5Zero : List ℚ := res_L6 r6Zero hRes

def r4Zero : List ℚ := res_L5 r5Zero hRes

def r3Zero : List ℚ := res_L4 r4Zero hRes

def r2Zero : List ℚ := res_L3 r3Zero hRes

def r1Zero : List ℚ := res_L2 r2Zero hRes

def baselineZero : List ℚ := res_L1 r1Zero hRes

/-- Every sample of the list is zero. -/
def AllZero (xs : List ℚ) : Prop := ∀ x ∈ xs, x = 0

lemma sl_length (xs : List ℚ) (a b : ℕ) :
    (sl xs a b).length = min (b - a) (xs.length - a) := by
  simp [sl]

lemma sl_getD (xs : List ℚ) (a b j : ℕ) (hj : j < b - a) (hx : a + j < xs.length) :
    (sl xs a b).getD j 0 = xs.getD (a + j) 0 := by
  have hlt : j < (sl xs a b).length := by
    rw [sl_length]; omega
  rw [List.getD_eq_getElem _ _ hlt, List.getD_eq_getElem _ _ hx]
  simp only [sl, List.getElem_take, List.getElem_drop]

lemma getD_reverse (w : List ℚ) (j : ℕ) (h : j < w.length) :
    w.reverse.getD j 0 = w.getD (w.length - 1 - j) 0 := by
  rw [List.getD_eq_getElem _ _ (by simpa using h), List.getD_eq_getElem _ _ (by omega)]
  exact List.getElem_reverse _

lemma zipWith_mul_sum :
    ∀ (w g : List ℚ), w.length = g.length →
      (List.zipWith (fun a b => a * b) w g).sum
        = ∑ j ∈ Finset.range g.length, w.getD j 0 * g.getD j 0
  | [], [], _ => by simp
  | [], b :: g, h => by simp at h
  | a :: w, [], h => by simp at h
  | a :: w, b :: g, h => by
    have ih := zipWith_mul_sum w g (by simpa using h)
    simp only [List.zipWith_cons_cons, List.sum_cons, List.length_cons, ih]
    rw [Finset.sum_range_succ']
    simp [List.getD_cons_succ, List.getD_cons_zero, add_comm]

lemma dotRev_eq_sum (w g : List ℚ) (h : w.length = g.length) :
    dotRev w g = ∑ j ∈ Finset.range g.length, w.getD (g.length - 1 - j) 0 * g.getD j 0 := by
  rw [dotRev, zipWith_mul_sum w.reverse g (by simpa using h)]
  refine Finset.sum_congr rfl (fun j hj => ?_)
  rw [Finset.mem_range] at hj
  rw [getD_reverse w j (by omega), h]

lemma window_dot (c g : List ℚ) (s : ℕ) (hg : g.length = 8) (hs : s + 8 ≤ c.length) :
    dotRev (sl c s (s + 8)) g = ∑ j ∈ Finset.range 8, c.getD (s + 7 - j) 0 * g.getD j 0 := by
  have hlen : (sl c s (s + 8)).length = 8 := by
    rw [sl_length]; omega
  rw [dotRev_eq_sum _ _ (by rw [hlen, hg]), hg]
  refine Finset.sum_congr rfl (fun j hj => ?_)
  rw [Finset.mem_range] at hj
  have h8 : (8 : ℕ) - 1 - j = 7 - j := by omega
  rw [h8, sl_getD c s (s + 8) (7 - j) (by omega) (by omega)]
  congr 2
  omega

lemma windows_map_getD (g c : List ℚ) (nOut k : ℕ) (hg : g.length = 8) (hk : k < nOut)
    (hc : k * 2 + 8 ≤ c.length) :
    ((List.range nOut).map (fun k => dotRev (sl c (k * 2) (k * 2 + g.length)) g)).getD k 0
      = ∑ j ∈ Finset.range 8, c.getD (2 * k + 7 - j) 0 * g.getD j 0 := by
  rw [List.getD_eq_getElem _ _ (by simpa using hk)]
  simp only [List.getElem_map, List.getElem_range]
  rw [hg, window_dot c g (k * 2) hg hc]
  refine Finset.sum_congr rfl (fun j hj => ?_)
  congr 2
  omega

lemma getD_append_offset (pre outs : List ℚ) (k : ℕ) (h : k < outs.length) :
    (pre ++ outs).getD (pre.length + k) 0 = outs.getD k 0 := by
  have hlt : pre.length + k < (pre ++ outs).length := by
    simp only [List.length_append]; omega
  rw [List.getD_eq_getElem _ _ hlt, List.getD_eq_getElem _ _ h,
    List.getElem_append_right (by omega)]
  congr 1
  omega

/-- C1: for every analysis stage with input block size B_in > 1
(levels 1–4, block sizes 16, 8, 4, 2), processing one block appends
exactly B_in/2 outputs to the stage's output sequence, and the k-th
appended output (k = 0 … B_in/2 − 1) equals the sum over j = 0 … 7 of
combined[2k + 7 − j] · h[j], where combined is the 7-sample history
concatenated with the input block and h the forward-ordered 8-tap
coefficient vector. -/
theorem c1_block_convolution (g hist res d1 d2 d3 d4 : List ℚ)
    (hg : g.length = 8) (hh : hist.length = 7)
    (h1 : d1.length = 16) (h2 : d2.length = 8) (h3 : d3.length = 4) (h4 : d4.length = 2) :
    (((dec_L1_step g (hist, res) d1).2).length = res.length + 8 ∧
      ∀ k, k < 8 → ((dec_L1_step g (hist, res) d1).2).getD (res.length + k) 0
        = ∑ j ∈ Finset.range 8, (hist ++ d1).getD (2 * k + 7 - j) 0 * g.getD j 0) ∧
    (((dec_L2_step g (hist, res) d2).2).length = res.length + 4 ∧
      ∀ k, k < 4 → ((dec_L2_step g (hist, res) d2).2).getD (res.length + k) 0
        = ∑ j ∈ Finset.range 8, (hist ++ d2).getD (2 * k + 7 - j) 0 * g.getD j 0) ∧
    (((dec_L3_step g (hist, res) d3).2).length = res.length + 2 ∧
      ∀ k, k < 2 → ((dec_L3_step g (hist, res) d3).2).getD (res.length + k) 0
        = ∑ j ∈ Finset.range 8, (hist ++ d3).getD (2 * k + 7 - j) 0 * g.getD j 0) ∧
    (((dec_L4_step g (hist, res) d4).2).length = res.length + 1 ∧
      ∀ k, k < 1 → ((dec_L4_step g (hist, res) d4).2).getD (res.length + k) 0
        = ∑ j ∈ Finset.range 8, (hist ++ d4).getD (2 * k + 7 - j) 0 * g.getD j 0) := by
  refine ⟨⟨by simp [dec_L1_step], ?_⟩, ⟨by simp [dec_L2_step], ?_⟩,
    ⟨by simp [dec_L3_step], ?_⟩, by simp [dec_L4_step], ?_⟩
  · intro k hk
    show (res ++ (List.range 8).map
        (fun k => dotRev (sl (hist ++ d1) (k * 2) (k * 2 + g.length)) g)).getD
        (res.length + k) 0 = _
    rw [getD_append_offset _ _ k (by simp [hk])]
    exact windows_map_getD g (hist ++ d1) 8 k hg hk
      (by rw [List.length_append, hh, h1]; omega)
  · intro k hk
    show (res ++ (List.range 4).map
        (fun k => dotRev (sl (hist ++ d2) (k * 2) (k * 2 + g.length)) g)).getD
        (res.length + k) 0 = _
    rw [getD_append_offset _ _ k (by simp [hk])]
    exact windows_map_getD g (hist ++ d2) 4 k hg hk
      (by rw [List.length_append, hh, h2]; omega)
  · intro k hk
    show (res ++ (List.range 2).map
        (fun k => dotRev (sl (hist ++ d3) (k * 2) (k * 2 + g.length)) g)).getD
        (res.length + k) 0 = _
    rw [getD_append_offset _ _ k (by simp [hk])]
    exact windows_map_getD g (hist ++ d3) 2 k hg hk
      (by rw [List.length_append, hh, h3]; omega)
  · intro k hk
    show (res ++ (List.range 1).map
        (fun k => dotRev (sl (hist ++ d4) (k * 2) (k * 2 + g.length)) g)).getD
        (res.length + k) 0 = _
    rw [getD_append_offset _ _ k (by simp [hk])]
    exact windows_map_getD g (hist ++ d4) 1 k hg hk
      (by rw [List.length_append, hh, h4]; omega)

/-- Concrete data for witnesses: an 8-tap all-ones filter, a 7-sample
history 1 … 7, and blocks of sizes 16, 8, 4, 2. -/
def c1G : List ℚ := [1, 1, 1, 1, 1, 1, 1, 1]

def c1Hist : List ℚ := [1, 2, 3, 4, 5, 6, 7]

def c1D1 : List ℚ := [0, 0, 0, 0, 0, 0, 0, 0, 0, 0, 0, 0, 0, 0, 0, 0]

def c1D2 : List ℚ := [0, 0, 0, 0, 0, 0, 0, 0]

def c1D3 : List ℚ := [0, 0, 0, 0]

def c1D4 : List ℚ := [8, 9]

/-- Witness for `c1_block_convolution`: at the concrete inputs above,
the first level-1 output is 1+2+…+7 = 28 and the level-4 output over
combined = [1 … 9] is 1+2+…+8 = 36. -/
theorem c1_block_convolution_witness :
    c1G.length = 8 ∧ c1Hist.length = 7 ∧ c1D1.length = 16 ∧ c1D2.length = 8 ∧
      c1D3.length = 4 ∧ c1D4.length = 2 ∧
      ((dec_L1_step c1G (c1Hist, []) c1D1).2).getD 0 0 = 28 ∧
      ((dec_L4_step c1G (c1Hist, []) c1D4).2).getD 0 0 = 36 := by
  have h := c1_block_convolution c1G c1Hist [] c1D1 c1D2 c1D3 c1D4 rfl rfl rfl rfl rfl rfl
  refine ⟨rfl, rfl, rfl, rfl, rfl, rfl, ?_, ?_⟩
  · exact (h.1.2 0 (by omega)).trans (by
      simp [Finset.sum_range_succ, c1Hist, c1D1, c1G]
      norm_num)
  · exact (h.2.2.2.2 0 (by omega)).trans (by
      simp [Finset.sum_range_succ, c1Hist, c1D4, c1G]
      norm_num)

lemma lastN_append (xs ys : List ℚ) (n : ℕ) (h : n ≤ ys.length) :
    lastN n (xs ++ ys) = lastN n ys := by
  unfold lastN
  rw [List.length_append,
    show xs.length + ys.length - n = xs.length + (ys.length - n) by omega,
    List.drop_append]

lemma sl_eq_lastN (xs : List ℚ) (a n : ℕ) (h : xs.length = a + n) :
    sl xs a (a + n) = lastN n xs := by
  unfold sl lastN
  rw [h, show a + n - a = n by omega, show a + n - n = a by omega]
  exact List.take_of_length_le (by rw [List.length_drop]; omega)

/-- C3: after processing one block, every analysis stage's history
buffer equals exactly the last 7 samples of the combined
(history ++ block) buffer formed for that block, and every synthesis
stage's history buffer equals exactly the last 3 samples of the
4-sample window formed for the current sample. -/
theorem c3_history_invariant (g hist shist res : List ℚ) (d1 d2 d3 d4 d5 : List ℚ) (din : ℚ)
    (phase : ℕ) (hh : hist.length = 7) (hs : shist.length = 3)
    (h1 : d1.length = 16) (h2 : d2.length = 8) (h3 : d3.length = 4) (h4 : d4.length = 2)
    (h5 : d5.length = 1) :
    (dec_L1_step g (hist, res) d1).1 = lastN 7 (hist ++ d1) ∧
    (dec_L2_step g (hist, res) d2).1 = lastN 7 (hist ++ d2) ∧
    (dec_L3_step g (hist, res) d3).1 = lastN 7 (hist ++ d3) ∧
    (dec_L4_step g (hist, res) d4).1 = lastN 7 (hist ++ d4) ∧
    (dec_L5_step g (hist, phase, res) d5).1 = lastN 7 (hist ++ d5) ∧
    (dec_L6_step g (hist, phase, res) d5).1 = lastN 7 (hist ++ d5) ∧
    (dec_L7_step g (hist, phase, res) d5).1 = lastN 7 (hist ++ d5) ∧
    (res_L7_step g (shist, res) din).1 = lastN 3 (shist ++ [din]) ∧
    (res_L6_step g (shist, res) din).1 = lastN 3 (shist ++ [din]) ∧
    (res_L5_step g (shist, res) din).1 = lastN 3 (shist ++ [din]) ∧
    (res_L4_step g (shist, res) din).1 = lastN 3 (shist ++ [din]) ∧
    (res_L3_sampleStep g (shist, res) din).1 = lastN 3 (shist ++ [din]) ∧
    (res_L2_sampleStep g (shist, res) din).1 = lastN 3 (shist ++ [din]) ∧
    (res_L1_sampleStep g (shist, res) din).1 = lastN 3 (shist ++ [din]) := by
  have hd1 : (dec_L1_step g (hist, res) d1).1 = lastN 7 (hist ++ d1) := by
    show sl d1 9 16 = _
    rw [lastN_append hist d1 7 (by omega)]
    exact sl_eq_lastN d1 9 7 (by omega)
  have hd2 : (dec_L2_step g (hist, res) d2).1 = lastN 7 (hist ++ d2) := by
    show sl d2 1 8 = _
    rw [lastN_append hist d2 7 (by omega)]
    exact sl_eq_lastN d2 1 7 (by omega)
  have hd3 : (dec_L3_step g (hist, res) d3).1 = lastN 7 (hist ++ d3) := by
    show sl (hist ++ d3) 4 11 = _
    exact sl_eq_lastN _ 4 7 (by rw [List.length_append]; omega)
  have hd4 : (dec_L4_step g (hist, res) d4).1 = lastN 7 (hist ++ d4) := by
    show sl (hist ++ d4) 2 9 = _
    exact sl_eq_lastN _ 2 7 (by rw [List.length_append]; omega)
  have hd5 : sl (hist ++ d5) 1 8 = lastN 7 (hist ++ d5) :=
    sl_eq_lastN _ 1 7 (by rw [List.length_append]; omega)
  have hres : sl (shist ++ [din]) 1 4 = lastN 3 (shist ++ [din]) :=
    sl_eq_lastN _ 1 3 (by simp [hs])
  exact ⟨hd1, hd2, hd3, hd4, hd5, hd5, hd5, hres, hres, hres, hres, hres, hres, hres⟩

/-- Concrete 3-sample synthesis history for witnesses. -/
def c3SHist : List ℚ := [1, 2, 3]

/-- Concrete one-sample block for witnesses. -/
def c3D5 : List ℚ := [5]

/-- Witness for `c3_history_invariant` at concrete inputs. -/
theorem c3_history_invariant_witness :
    c1Hist.length = 7 ∧ c3SHist.length = 3 ∧ c1D1.length = 16 ∧ c1D2.length = 8 ∧
      c1D3.length = 4 ∧ c1D4.length = 2 ∧ c3D5.length = 1 ∧
      (dec_L1_step c1G (c1Hist, []) c1D1).1 = lastN 7 (c1Hist ++ c1D1) ∧
      (res_L7_step c1G (c3SHist, []) 4).1 = lastN 3 (c3SHist ++ [4]) := by
  have h := c3_history_invariant c1G c1Hist c3SHist [] c1D1 c1D2 c1D3 c1D4 c3D5 4 0
    rfl rfl rfl rfl rfl rfl rfl
  exact ⟨rfl, rfl, rfl, rfl, rfl, rfl, rfl, h.1, h.2.2.2.2.2.2.2.1⟩

lemma everyOther_length : ∀ (xs : List ℚ), (everyOther xs).length = (xs.length + 1) / 2
  | [] => rfl
  | [a] => by simp [everyOther]
  | _ :: _ :: rest => by
    have ih := everyOther_length rest
    simp only [everyOther, List.length_cons, ih]
    omega

lemma everyOther_getD : ∀ (xs : List ℚ) (j : ℕ), (everyOther xs).getD j 0 = xs.getD (2 * j) 0
  | [], j => by simp [everyOther]
  | [_], 0 => rfl
  | [a], j + 1 => by
    rw [show everyOther [a] = [a] from rfl,
      List.getD_eq_default _ _ (by simp), List.getD_eq_default _ _ (by simp; omega)]
  | _ :: _ :: rest, 0 => rfl
  | a :: b :: rest, j + 1 => by
    have ih := everyOther_getD rest j
    show (a :: everyOther rest).getD (j + 1) 0 = _
    rw [List.getD_cons_succ, ih, show 2 * (j + 1) = 2 * j + 1 + 1 by omega,
      List.getD_cons_succ, List.getD_cons_succ]

lemma everyOther_tail_getD (xs : List ℚ) (j : ℕ) :
    (everyOther xs.tail).getD j 0 = xs.getD (2 * j + 1) 0 := by
  cases xs with
  | nil => simp [everyOther]
  | cons a rest => rw [List.tail_cons, everyOther_getD, List.getD_cons_succ]

lemma getD_append_self (pre outs : List ℚ) (h : 0 < outs.length) :
    (pre ++ outs).getD pre.length 0 = outs.getD 0 0 := by
  simpa using getD_append_offset pre outs 0 h

/-- The two polyphase dot products of a 4-sample window against the
even / odd half-filters of an 8-tap filter, written as indexed sums. -/
lemma halfFilter_dot (w g : List ℚ) (hw : w.length = 4) (hg : g.length = 8) :
    dotRev w (everyOther g) = ∑ j ∈ Finset.range 4, w.getD (3 - j) 0 * g.getD (2 * j) 0 ∧
    dotRev w (everyOther g.tail)
      = ∑ j ∈ Finset.range 4, w.getD (3 - j) 0 * g.getD (2 * j + 1) 0 := by
  have hle : (everyOther g).length = 4 := by rw [everyOther_length, hg]
  have hlo : (everyOther g.tail).length = 4 := by
    rw [everyOther_length]
    cases g with
    | nil => simp at hg
    | cons a rest => simp at hg ⊢; omega
  constructor
  · rw [dotRev_eq_sum w _ (hw.trans hle.symm), hle]
    refine Finset.sum_congr rfl (fun j hj => ?_)
    rw [Finset.mem_range] at hj
    rw [everyOther_getD]
  · rw [dotRev_eq_sum w _ (hw.trans hlo.symm), hlo]
    refine Finset.sum_congr rfl (fun j hj => ?_)
    rw [Finset.mem_range] at hj
    rw [everyOther_tail_getD]

/-- C4: each synthesis stage, per processed input sample, forms the
4-sample window (3-sample history then the current sample) and appends
exactly two outputs in order: the reversed window dotted with the
even-indexed half-filter, then with the odd-indexed half-filter, the
half-filters being every second coefficient of the time-reversed 8-tap
filter starting at offsets 0 and 1; one input sample yields two
reconstructed samples. -/
theorem c4_synthesis_polyphase (f shist res : List ℚ) (din : ℚ)
    (hf : f.length = 8) (hs : shist.length = 3) :
    ((res_L7_step f.reverse (shist, res) din).2.length = res.length + 2 ∧
      (res_L7_step f.reverse (shist, res) din).2.getD res.length 0
        = ∑ j ∈ Finset.range 4, (shist ++ [din]).getD (3 - j) 0 * f.reverse.getD (2 * j) 0 ∧
      (res_L7_step f.reverse (shist, res) din).2.getD (res.length + 1) 0
        = ∑ j ∈ Finset.range 4, (shist ++ [din]).getD (3 - j) 0 * f.reverse.getD (2 * j + 1) 0) ∧
    ((res_L6_step f.reverse (shist, res) din).2.length = res.length + 2 ∧
      (res_L6_step f.reverse (shist, res) din).2.getD res.length 0
        = ∑ j ∈ Finset.range 4, (shist ++ [din]).getD (3 - j) 0 * f.reverse.getD (2 * j) 0 ∧
      (res_L6_step f.reverse (shist, res) din).2.getD (res.length + 1) 0
        = ∑ j ∈ Finset.range 4, (shist ++ [din]).getD (3 - j) 0 * f.reverse.getD (2 * j + 1) 0) ∧
    ((res_L5_step f.reverse (shist, res) din).2.length = res.length + 2 ∧
      (res_L5_step f.reverse (shist, res) din).2.getD res.length 0
        = ∑ j ∈ Finset.range 4, (shist ++ [din]).getD (3 - j) 0 * f.reverse.getD (2 * j) 0 ∧
      (res_L5_step f.reverse (shist, res) din).2.getD (res.length + 1) 0
        = ∑ j ∈ Finset.range 4, (shist ++ [din]).getD (3 - j) 0 * f.reverse.getD (2 * j + 1) 0) ∧
    ((res_L4_step f.reverse (shist, res) din).2.length = res.length + 2 ∧
      (res_L4_step f.reverse (shist, res) din).2.getD res.length 0
        = ∑ j ∈ Finset.range 4, (shist ++ [din]).getD (3 - j) 0 * f.reverse.getD (2 * j) 0 ∧
      (res_L4_step f.reverse (shist, res) din).2.getD (res.length + 1) 0
        = ∑ j ∈ Finset.range 4, (shist ++ [din]).getD (3 - j) 0 * f.reverse.getD (2 * j + 1) 0) ∧
    ((res_L3_sampleStep f.reverse (shist, res) din).2.length = res.length + 2 ∧
      (res_L3_sampleStep f.reverse (shist, res) din).2.getD res.length 0
        = ∑ j ∈ Finset.range 4, (shist ++ [din]).getD (3 - j) 0 * f.reverse.getD (2 * j) 0 ∧
      (res_L3_sampleStep f.reverse (shist, res) din).2.getD (res.length + 1) 0
        = ∑ j ∈ Finset.range 4, (shist ++ [din]).getD (3 - j) 0 * f.reverse.getD (2 * j + 1) 0) ∧
    ((res_L2_sampleStep f.reverse (shist, res) din).2.length = res.length + 2 ∧
      (res_L2_sampleStep f.reverse (shist, res) din).2.getD res.length 0
        = ∑ j ∈ Finset.range 4, (shist ++ [din]).getD (3 - j) 0 * f.reverse.getD (2 * j) 0 ∧
      (res_L2_sampleStep f.reverse (shist, res) din).2.getD (res.length + 1) 0
        = ∑ j ∈ Finset.range 4, (shist ++ [din]).getD (3 - j) 0 * f.reverse.getD (2 * j + 1) 0) ∧
    ((res_L1_sampleStep f.reverse (shist, res) din).2.length = res.length + 2 ∧
      (res_L1_sampleStep f.reverse (shist, res) din).2.getD res.length 0
        = ∑ j ∈ Finset.range 4, (shist ++ [din]).getD (3 - j) 0 * f.reverse.getD (2 * j) 0 ∧
      (res_L1_sampleStep f.reverse (shist, res) din).2.getD (res.length + 1) 0
        = ∑ j ∈ Finset.range 4, (shist ++ [din]).getD (3 - j) 0 * f.reverse.getD (2 * j + 1) 0) := by
  have hw4 : (shist ++ [din]).length = 4 := by simp [hs]
  have hg8 : f.reverse.length = 8 := by simp [hf]
  obtain ⟨he, ho⟩ := halfFilter_dot (shist ++ [din]) f.reverse hw4 hg8
  have core : (res ++ [dotRev (shist ++ [din]) (everyOther f.reverse),
        dotRev (shist ++ [din]) (everyOther f.reverse.tail)]).length = res.length + 2 ∧
      (res ++ [dotRev (shist ++ [din]) (everyOther f.reverse),
        dotRev (shist ++ [din]) (everyOther f.reverse.tail)]).getD res.length 0
        = ∑ j ∈ Finset.range 4, (shist ++ [din]).getD (3 - j) 0 * f.reverse.getD (2 * j) 0 ∧
      (res ++ [dotRev (shist ++ [din]) (everyOther f.reverse),
        dotRev (shist ++ [din]) (everyOther f.reverse.tail)]).getD (res.length + 1) 0
        = ∑ j ∈ Finset.range 4, (shist ++ [din]).getD (3 - j) 0 * f.reverse.getD (2 * j + 1) 0 := by
    refine ⟨by simp, ?_, ?_⟩
    · rw [getD_append_self _ _ (by simp)]
      exact he
    · rw [getD_append_offset _ _ 1 (by simp)]
      exact ho
  exact ⟨core, core, core, core, core, core, core⟩

/-- Concrete 8-tap filter for the C4 witness. -/
def c4F : List ℚ := [1, 2, 3, 4, 5, 6, 7, 8]

/-- Concrete synthesis history for the C4 witness. -/
def c4SHist : List ℚ := [10, 20, 30]

/-- Witness for `c4_synthesis_polyphase`: window [10,20,30,40] against
the reversed filter's half-filters [8,6,4,2] and [7,5,3,1] yields the
pair (600, 500). -/
theorem c4_synthesis_polyphase_witness :
    c4F.length = 8 ∧ c4SHist.length = 3 ∧
      (res_L7_step c4F.reverse (c4SHist, []) 40).2.length = 0 + 2 ∧
      (res_L7_step c4F.reverse (c4SHist, []) 40).2.getD 0 0 = 600 ∧
      (res_L7_step c4F.reverse (c4SHist, []) 40).2.getD (0 + 1) 0 = 500 := by
  have h := c4_synthesis_polyphase c4F c4SHist [] 40 rfl rfl
  refine ⟨rfl, rfl, h.1.1, ?_, ?_⟩
  · exact (h.1.2.1).trans (by
      simp [Finset.sum_range_succ, c4F, c4SHist]
      norm_num)
  · exact (h.1.2.2).trans (by
      simp [Finset.sum_range_succ, c4F, c4SHist]
      norm_num)

lemma foldl_res_growth {α : Type} (l : List α) (f : List ℚ × List ℚ → α → List ℚ × List ℚ)
    (c : ℕ) (hf : ∀ st a, ((f st a).2).length = st.2.length + c) :
    ∀ init : List ℚ × List ℚ, ((l.foldl f init).2).length = init.2.length + c * l.length := by
  induction l with
  | nil => intro init; simp
  | cons a l ih =>
    intro init
    rw [List.foldl_cons, ih (f init a), hf init a, List.length_cons]
    ring

lemma foldl_over_map {α β γ : Type} (l : List α) (f : α → β) (op : γ → β → γ) (init : γ) :
    l.foldl (fun st a => op st (f a)) init = (l.map f).foldl op init := by
  induction l generalizing init with
  | nil => rfl
  | cons a l ih => simp only [List.foldl_cons, List.map_cons, ih]

lemma dec_L5_step_eq (g hist res d : List ℚ) (phase : ℕ) :
    dec_L5_step g (hist, phase, res) d
      = (sl (hist ++ d) 1 8, if phase = 0 then 1 else 0,
          if phase = 0 then res ++ [dotRev (sl (hist ++ d) 0 g.length) g] else res) := by
  by_cases hp : phase = 0 <;> simp [dec_L5_step, hp, List.range_succ]

/-- Output count of a run of `dec_L5` cycles from an arbitrary state:
starting in phase 0 a run of N cycles emits ⌈N/2⌉ outputs, starting in
the active phase it emits ⌊N/2⌋. -/
lemma l5RunCount (g : List ℚ) :
    ∀ (dins : List (List ℚ)) (hist : List ℚ) (phase : ℕ) (res : List ℚ),
      ((dins.foldl (dec_L5_step g) (hist, phase, res)).2.2).length
        = res.length + (if phase = 0 then (dins.length + 1) / 2 else dins.length / 2)
  | [], hist, phase, res => by simp
  | d :: dins, hist, phase, res => by
    rw [List.foldl_cons, dec_L5_step_eq]
    by_cases hp : phase = 0
    · rw [if_pos hp, if_pos hp, if_pos hp,
        l5RunCount g dins (sl (hist ++ d) 1 8) 1 (res ++ [dotRev (sl (hist ++ d) 0 g.length) g]),
        if_neg (by decide : ¬ (1 : ℕ) = 0)]
      simp only [List.length_append, List.length_cons, List.length_nil]
      omega
    · rw [if_neg hp, if_neg hp, if_neg hp,
        l5RunCount g dins (sl (hist ++ d) 1 8) 0 res,
        if_pos rfl]
      simp only [List.length_cons]

/-- C2 (amended): warm-up skip counts of the analysis stages, read off
from the output lengths — level 1 skips its first block (8 outputs per
remaining block of 16), level 2 skips its first block, level 3 skips
its first two blocks, level 4 skips its first FOUR blocks, and levels
5–7 skip the first 7 single-sample cycles (then output on alternate
cycles starting with the first processed one). -/
theorem c2_warmup_skips (data g : List ℚ) :
    (dec_L1 data g).length = 8 * (data.length / 16 - 1) ∧
    (dec_L2 data g).length = 4 * (data.length / 8 - 1) ∧
    (dec_L3 data g).length = 2 * (data.length / 4 - 2) ∧
    (dec_L4 data g).length = 1 * (data.length / 2 - 4) ∧
    (dec_L5 data g).length = (data.length / 1 - 7 + 1) / 2 ∧
    (dec_L6 data g).length = (data.length / 1 - 7 + 1) / 2 ∧
    (dec_L7 data g).length = (data.length / 1 - 7 + 1) / 2 := by
  have h5 : (dec_L5 data g).length = (data.length / 1 - 7 + 1) / 2 := by
    have hm := foldl_over_map ((List.range (data.length / 1)).drop 7)
      (fun i => sl data (i * 1) ((i + 1) * 1)) (dec_L5_step g)
      (sl data 0 7, 0, ([] : List ℚ))
    have h1 : (dec_L5 data g).length
        = (((((List.range (data.length / 1)).drop 7).map
            (fun i => sl data (i * 1) ((i + 1) * 1))).foldl (dec_L5_step g)
            (sl data 0 7, 0, ([] : List ℚ))).2.2).length :=
      congrArg (fun t => (t.2.2).length) hm
    rw [h1, l5RunCount g _ (sl data 0 7) 0 []]
    simp
  refine ⟨?_, ?_, ?_, ?_, h5, h5, h5⟩
  · have h : (dec_L1 data g).length
        = ([] : List ℚ).length + 8 * (((List.range (data.length / 16)).drop 1).length) :=
      foldl_res_growth ((List.range (data.length / 16)).drop 1)
        (fun st i => dec_L1_step g st (sl data (i * 16) ((i + 1) * 16))) 8
        (fun st a => by simp [dec_L1_step]) (sl data 9 16, [])
    rw [h, List.length_drop, List.length_range, List.length_nil, Nat.zero_add]
  · have h : (dec_L2 data g).length
        = ([] : List ℚ).length + 4 * (((List.range (data.length / 8)).drop 1).length) :=
      foldl_res_growth ((List.range (data.length / 8)).drop 1)
        (fun st i => dec_L2_step g st (sl data (i * 8) ((i + 1) * 8))) 4
        (fun st a => by simp [dec_L2_step]) (sl data 1 8, [])
    rw [h, List.length_drop, List.length_range, List.length_nil, Nat.zero_add]
  · have h : (dec_L3 data g).length
        = ([] : List ℚ).length + 2 * (((List.range (data.length / 4)).drop 2).length) :=
      foldl_res_growth ((List.range (data.length / 4)).drop 2)
        (fun st i => dec_L3_step g st (sl data (i * 4) ((i + 1) * 4))) 2
        (fun st a => by simp [dec_L3_step]) (sl data 1 8, [])
    rw [h, List.length_drop, List.length_range, List.length_nil, Nat.zero_add]
  · have h : (dec_L4 data g).length
        = ([] : List ℚ).length + 1 * (((List.range (data.length / 2)).drop 4).length) :=
      foldl_res_growth ((List.range (data.length / 2)).drop 4)
        (fun st i => dec_L4_step g st (sl data (i * 2) ((i + 1) * 2))) 1
        (fun st a => by simp [dec_L4_step]) (sl data 1 8, [])
    rw [h, List.length_drop, List.length_range, List.length_nil, Nat.zero_add]

/-- C2 counterexample: on a concrete 4-block (8-sample) input, a
level-4 stage that skipped only its first two blocks would emit
4 − 2 = 2 outputs, but `dec_L4` emits none — it skips four blocks. -/
theorem c2_counterexample :
    (dec_L4 (List.replicate 8 (0 : ℚ)) hDec).length = 0 ∧
      (dec_L4 (List.replicate 8 (0 : ℚ)) hDec).length ≠ 4 - 2 := by
  constructor <;> decide

/-- C6: for the levels 5–7 step, across any contiguous run of N
single-sample cycles from any state, the number of emitted outputs is
exactly ⌈N/2⌉ when the starting phase is 0 and ⌊N/2⌋ otherwise —
never more, never fewer. -/
theorem c6_phase_run_count (xs g hist res : List ℚ) (phase : ℕ) :
    ((xs.foldl (fun st x => dec_L5_step g st [x]) (hist, phase, res)).2.2).length
      = res.length + (if phase = 0 then (xs.length + 1) / 2 else xs.length / 2) ∧
    ((xs.foldl (fun st x => dec_L6_step g st [x]) (hist, phase, res)).2.2).length
      = res.length + (if phase = 0 then (xs.length + 1) / 2 else xs.length / 2) ∧
    ((xs.foldl (fun st x => dec_L7_step g st [x]) (hist, phase, res)).2.2).length
      = res.length + (if phase = 0 then (xs.length + 1) / 2 else xs.length / 2) := by
  have key : ((xs.foldl (fun st x => dec_L5_step g st [x]) (hist, phase, res)).2.2).length
      = res.length + (if phase = 0 then (xs.length + 1) / 2 else xs.length / 2) := by
    have hm := foldl_over_map xs (fun x : ℚ => [x]) (dec_L5_step g) (hist, phase, res)
    have h1 : ((xs.foldl (fun st x => dec_L5_step g st [x]) (hist, phase, res)).2.2).length
        = (((xs.map (fun x : ℚ => [x])).foldl (dec_L5_step g) (hist, phase, res)).2.2).length :=
      congrArg (fun t => (t.2.2).length) hm
    rw [h1, l5RunCount g _ hist phase res, List.length_map]
  exact ⟨key, key, key⟩

/-- C7 (amended): for levels 5–7 the phase flag is initialized to 0 at
stream start and toggled on every input cycle; the first toggle already
produces the active (output-emitting) phase on the FIRST processed
input cycle, which therefore emits one output. -/
theorem c7_phase_start (g data hist res d5 : List ℚ) (st : List ℚ × ℕ × List ℚ) :
    ((dec_L5_init data).2.1 = 0 ∧ (dec_L6_init data).2.1 = 0 ∧ (dec_L7_init data).2.1 = 0) ∧
    ((dec_L5_step g st d5).2.1 = (if st.2.1 = 0 then 1 else 0) ∧
      (dec_L6_step g st d5).2.1 = (if st.2.1 = 0 then 1 else 0) ∧
      (dec_L7_step g st d5).2.1 = (if st.2.1 = 0 then 1 else 0)) ∧
    (((dec_L5_step g (hist, 0, res) d5).2.2).length = res.length + 1 ∧
      ((dec_L6_step g (hist, 0, res) d5).2.2).length = res.length + 1 ∧
      ((dec_L7_step g (hist, 0, res) d5).2.2).length = res.length + 1) := by
  have hlen : ((dec_L5_step g (hist, 0, res) d5).2.2).length = res.length + 1 := by
    simp [dec_L5_step]
  exact ⟨⟨rfl, rfl, rfl⟩, ⟨rfl, rfl, rfl⟩, hlen, hlen, hlen⟩

/-- C7 counterexample: a concrete 8-sample input gives `dec_L5` exactly
one processed cycle (cycles 0–6 are warm-up), and that first processed
cycle already emits an output: the output length is 1, not 0. -/
theorem c7_counterexample :
    (dec_L5 (List.replicate 8 (0 : ℚ)) hDec).length = 1 ∧
      (dec_L5 (List.replicate 8 (0 : ℚ)) hDec).length ≠ 0 := by
  constructor <;> decide

/-- C10: the three deepest analysis stages are extensionally equal, and
the four deepest synthesis stages are extensionally equal. -/
theorem c10_deep_stage_equality :
    (∀ data g : List ℚ, dec_L5 data g = dec_L6 data g ∧ dec_L6 data g = dec_L7 data g) ∧
    (∀ data g : List ℚ, res_L7 data g = res_L6 data g ∧ res_L6 data g = res_L5 data g ∧
      res_L5 data g = res_L4 data g) :=
  ⟨fun _ _ => ⟨rfl, rfl⟩, fun _ _ => ⟨rfl, rfl, rfl⟩⟩

lemma allZero_sl (xs : List ℚ) (a b : ℕ) (h : AllZero xs) : AllZero (sl xs a b) := by
  intro x hx
  have hx1 : x ∈ xs.drop a := List.take_subset _ _ hx
  exact h x (List.drop_subset _ _ hx1)

lemma allZero_append {xs ys : List ℚ} (hx : AllZero xs) (hy : AllZero ys) :
    AllZero (xs ++ ys) := by
  intro x h
  rcases List.mem_append.1 h with h | h
  · exact hx x h
  · exact hy x h

lemma allZero_getD (xs : List ℚ) (h : AllZero xs) (n : ℕ) : xs.getD n 0 = 0 := by
  rcases lt_or_ge n xs.length with hl | hl
  · rw [List.getD_eq_getElem _ _ hl]
    exact h _ (List.getElem_mem hl)
  · exact List.getD_eq_default _ _ hl

lemma zipWith_mul_zero :
    ∀ (a b : List ℚ), AllZero a → (List.zipWith (fun x y => x * y) a b).sum = 0
  | [], _, _ => by simp
  | x :: a, [], h => by simp
  | x :: a, y :: b, h => by
    have hx : x = 0 := h x (by simp)
    have ih := zipWith_mul_zero a b (fun z hz => h z (by simp [hz]))
    simp [hx, ih]

lemma dotRev_zero (w g : List ℚ) (h : AllZero w) : dotRev w g = 0 := by
  apply zipWith_mul_zero
  intro x hx
  exact h x (List.mem_reverse.1 hx)

lemma foldl_inv {α β : Type} (P : β → Prop) (f : β → α → β) (l : List α) (init : β)
    (hstep : ∀ b a, P b → P (f b a)) (h0 : P init) : P (l.foldl f init) := by
  induction l generalizing init with
  | nil => exact h0
  | cons a l ih => exact ih (f init a) (hstep init a h0)

lemma windows_map_zero (g c : List ℚ) (n : ℕ) (h : AllZero c) :
    AllZero ((List.range n).map (fun k => dotRev (sl c (k * 2) (k * 2 + g.length)) g)) := by
  intro x hx
  rw [List.mem_map] at hx
  obtain ⟨k, _, rfl⟩ := hx
  exact dotRev_zero _ _ (allZero_sl _ _ _ h)

lemma window_zero (hist : List ℚ) (din : ℚ) (hh : AllZero hist) (hd : din = 0) :
    AllZero (hist ++ [din]) := by
  refine allZero_append hh ?_
  intro x hx
  rw [List.mem_singleton] at hx
  rw [hx, hd]

lemma dec_L1_zero (data g : List ℚ) (h : AllZero data) : AllZero (dec_L1 data g) := by
  refine (foldl_inv (fun st : List ℚ × List ℚ => AllZero st.1 ∧ AllZero st.2)
    (fun st i => dec_L1_step g st (sl data (i * 16) ((i + 1) * 16)))
    ((List.range (data.length / 16)).drop 1) (sl data 9 16, []) ?_
    ⟨allZero_sl _ _ _ h, by intro x hx; simp at hx⟩).2
  rintro ⟨hist, res⟩ i ⟨hh, hr⟩
  exact ⟨allZero_sl _ _ _ (allZero_sl _ _ _ h),
    allZero_append hr (windows_map_zero g _ 8 (allZero_append hh (allZero_sl _ _ _ h)))⟩

lemma dec_L2_zero (data g : List ℚ) (h : AllZero data) : AllZero (dec_L2 data g) := by
  refine (foldl_inv (fun st : List ℚ × List ℚ => AllZero st.1 ∧ AllZero st.2)
    (fun st i => dec_L2_step g st (sl data (i * 8) ((i + 1) * 8)))
    ((List.range (data.length / 8)).drop 1) (sl data 1 8, []) ?_
    ⟨allZero_sl _ _ _ h, by intro x hx; simp at hx⟩).2
  rintro ⟨hist, res⟩ i ⟨hh, hr⟩
  exact ⟨allZero_sl _ _ _ (allZero_sl _ _ _ h),
    allZero_append hr (windows_map_zero g _ 4 (allZero_append hh (allZero_sl _ _ _ h)))⟩

lemma dec_L3_zero (data g : List ℚ) (h : AllZero data) : AllZero (dec_L3 data g) := by
  refine (foldl_inv (fun st : List ℚ × List ℚ => AllZero st.1 ∧ AllZero st.2)
    (fun st i => dec_L3_step g st (sl data (i * 4) ((i + 1) * 4)))
    ((List.range (data.length / 4)).drop 2) (sl data 1 8, []) ?_
    ⟨allZero_sl _ _ _ h, by intro x hx; simp at hx⟩).2
  rintro ⟨hist, res⟩ i ⟨hh, hr⟩
  exact ⟨allZero_sl _ _ _ (allZero_append hh (allZero_sl _ _ _ h)),
    allZero_append hr (windows_map_zero g _ 2 (allZero_append hh (allZero_sl _ _ _ h)))⟩

lemma dec_L4_zero (data g : List ℚ) (h : AllZero data) : AllZero (dec_L4 data g) := by
  refine (foldl_inv (fun st : List ℚ × List ℚ => AllZero st.1 ∧ AllZero st.2)
    (fun st i => dec_L4_step g st (sl data (i * 2) ((i + 1) * 2)))
    ((List.range (data.length / 2)).drop 4) (sl data 1 8, []) ?_
    ⟨allZero_sl _ _ _ h, by intro x hx; simp at hx⟩).2
  rintro ⟨hist, res⟩ i ⟨hh, hr⟩
  exact ⟨allZero_sl _ _ _ (allZero_append hh (allZero_sl _ _ _ h)),
    allZero_append hr (windows_map_zero g _ 1 (allZero_append hh (allZero_sl _ _ _ h)))⟩

lemma dec_L5_zero (data g : List ℚ) (h : AllZero data) : AllZero (dec_L5 data g) := by
  refine (foldl_inv (fun st : List ℚ × ℕ × List ℚ => AllZero st.1 ∧ AllZero st.2.2)
    (fun st i => dec_L5_step g st (sl data (i * 1) ((i + 1) * 1)))
    ((List.range (data.length / 1)).drop 7) (dec_L5_init data) ?_
    ⟨allZero_sl _ _ _ h, by intro x hx; simp [dec_L5_init] at hx⟩).2
  rintro ⟨hist, phase, res⟩ i ⟨hh, hr⟩
  show AllZero (dec_L5_step g (hist, phase, res) (sl data (i * 1) ((i + 1) * 1))).1 ∧
    AllZero (dec_L5_step g (hist, phase, res) (sl data (i * 1) ((i + 1) * 1))).2.2
  rw [dec_L5_step_eq]
  have hcz : AllZero (hist ++ sl data (i * 1) ((i + 1) * 1)) :=
    allZero_append hh (allZero_sl _ _ _ h)
  refine ⟨allZero_sl _ _ _ hcz, ?_⟩
  by_cases hp : phase = 0
  · simp only [if_pos hp]
    refine allZero_append hr ?_
    intro x hx
    rw [List.mem_singleton] at hx
    rw [hx]
    exact dotRev_zero _ _ (allZero_sl _ _ _ hcz)
  · simp only [if_neg hp]
    exact hr

lemma dec_L6_zero (data g : List ℚ) (h : AllZero data) : AllZero (dec_L6 data g) :=
  dec_L5_zero data g h

lemma dec_L7_zero (data g : List ℚ) (h : AllZero data) : AllZero (dec_L7 data g) :=
  dec_L5_zero data g h

lemma resPair_zero (w ga gb : List ℚ) (hw : AllZero w) :
    AllZero [dotRev w ga, dotRev w gb] := by
  intro x hx
  rcases List.mem_pair.1 hx with rfl | rfl
  · exact dotRev_zero _ _ hw
  · exact dotRev_zero _ _ hw

lemma resMap_zero (g w : List ℚ) (hw : AllZero w) :
    AllZero ((List.range 2).map (fun k =>
      dotRev w (if k = 0 then everyOther g else everyOther g.tail))) := by
  intro x hx
  rw [List.mem_map] at hx
  obtain ⟨k, _, rfl⟩ := hx
  exact dotRev_zero _ _ hw

lemma res_L7_zero (data g : List ℚ) (h : AllZero data) : AllZero (res_L7 data g) := by
  refine (foldl_inv (fun st : List ℚ × List ℚ => AllZero st.1 ∧ AllZero st.2)
    (fun st i => res_L7_step g st (data.getD i 0))
    ((List.range (data.length / 1)).drop 3) (sl data 0 3, []) ?_
    ⟨allZero_sl _ _ _ h, by intro x hx; simp at hx⟩).2
  rintro ⟨hist, res⟩ i ⟨hh, hr⟩
  have hwz : AllZero (hist ++ [data.getD i 0]) := window_zero _ _ hh (allZero_getD data h i)
  exact ⟨allZero_sl _ _ _ hwz, allZero_append hr (resPair_zero _ _ _ hwz)⟩

lemma res_L6_zero (data g : List ℚ) (h : AllZero data) : AllZero (res_L6 data g) :=
  res_L7_zero data g h

lemma res_L5_zero (data g : List ℚ) (h : AllZero data) : AllZero (res_L5 data g) :=
  res_L7_zero data g h

lemma res_L4_zero (data g : List ℚ) (h : AllZero data) : AllZero (res_L4 data g) :=
  res_L7_zero data g h

lemma res_L3_zero (data g : List ℚ) (h : AllZero data) : AllZero (res_L3 data g) := by
  refine (foldl_inv (fun st : List ℚ × List ℚ => AllZero st.1 ∧ AllZero st.2)
    (fun st i => (List.range 2).foldl
      (fun st2 j => res_L3_sampleStep g st2 (data.getD (i * 2 + j) 0)) st)
    ((List.range (data.length / 2)).drop 2) (sl data 1 4, []) ?_
    ⟨allZero_sl _ _ _ h, by intro x hx; simp at hx⟩).2
  intro st i hst
  refine foldl_inv (fun st : List ℚ × List ℚ => AllZero st.1 ∧ AllZero st.2) _ (List.range 2) st ?_ hst
  rintro ⟨hist, res⟩ j ⟨hh, hr⟩
  have hwz : AllZero (hist ++ [data.getD (i * 2 + j) 0]) :=
    window_zero _ _ hh (allZero_getD data h _)
  exact ⟨allZero_sl _ _ _ hwz, allZero_append hr (resMap_zero g _ hwz)⟩

lemma res_L2_zero (data g : List ℚ) (h : AllZero data) : AllZero (res_L2 data g) := by
  refine (foldl_inv (fun st : List ℚ × List ℚ => AllZero st.1 ∧ AllZero st.2)
    (fun st i => (List.range 4).foldl
      (fun st2 j => res_L2_sampleStep g st2 (data.getD (i * 4 + j) 0)) st)
    ((List.range (data.length / 4)).drop 1) (sl data 1 4, []) ?_
    ⟨allZero_sl _ _ _ h, by intro x hx; simp at hx⟩).2
  intro st i hst
  refine foldl_inv (fun st : List ℚ × List ℚ => AllZero st.1 ∧ AllZero st.2) _ (List.range 4) st ?_ hst
  rintro ⟨hist, res⟩ j ⟨hh, hr⟩
  have hwz : AllZero (hist ++ [data.getD (i * 4 + j) 0]) :=
    window_zero _ _ hh (allZero_getD data h _)
  exact ⟨allZero_sl _ _ _ hwz, allZero_append hr (resMap_zero g _ hwz)⟩

lemma res_L1_zero (data g : List ℚ) (h : AllZero data) : AllZero (res_L1 data g) := by
  refine (foldl_inv (fun st : List ℚ × List ℚ => AllZero st.1 ∧ AllZero st.2)
    (fun st i => (List.range 8).foldl
      (fun st2 j => res_L1_sampleStep g st2 (data.getD (i * 8 + j) 0)) st)
    ((List.range (data.length / 8)).drop 1) (sl data 5 8, []) ?_
    ⟨allZero_sl _ _ _ h, by intro x hx; simp at hx⟩).2
  intro st i hst
  refine foldl_inv (fun st : List ℚ × List ℚ => AllZero st.1 ∧ AllZero st.2) _ (List.range 8) st ?_ hst
  rintro ⟨hist, res⟩ j ⟨hh, hr⟩
  have hwz : AllZero (hist ++ [data.getD (i * 8 + j) 0]) :=
    window_zero _ _ hh (allZero_getD data h _)
  exact ⟨allZero_sl _ _ _ hwz, allZero_append hr (resMap_zero g _ hwz)⟩

/-- C9: on the constant-zero input of length 16 × 100, every one of
the 7 analysis-level output sequences is exactly zero at every sample,
and the reconstructed baseline of the 7-level synthesis cascade is
exactly zero. -/
theorem c9_zero_input :
    AllZero a1Zero ∧ AllZero a2Zero ∧ AllZero a3Zero ∧ AllZero a4Zero ∧
      AllZero a5Zero ∧ AllZero a6Zero ∧ AllZero a7Zero ∧ AllZero baselineZero := by
  have hz : AllZero zeroInput := by
    intro x hx
    exact List.eq_of_mem_replicate hx
  have h1 : AllZero a1Zero := dec_L1_zero _ _ hz
  have h2 : AllZero a2Zero := dec_L2_zero _ _ h1
  have h3 : AllZero a3Zero := dec_L3_zero _ _ h2
  have h4 : AllZero a4Zero := dec_L4_zero _ _ h3
  have h5 : AllZero a5Zero := dec_L5_zero _ _ h4
  have h6 : AllZero a6Zero := dec_L6_zero _ _ h5
  have h7 : AllZero a7Zero := dec_L7_zero _ _ h6
  have hr6 : AllZero r6Zero := res_L7_zero _ _ h7
  have hr5 : AllZero r5Zero := res_L6_zero _ _ hr6
  have hr4 : AllZero r4Zero := res_L5_zero _ _ hr5
  have hr3 : AllZero r3Zero := res_L4_zero _ _ hr4
  have hr2 : AllZero r2Zero := res_L3_zero _ _ hr3
  have hr1 : AllZero r1Zero := res_L2_zero _ _ hr2
  have hb : AllZero baselineZero := res_L1_zero _ _ hr1
  exact ⟨h1, h2, h3, h4, h5, h6, h7, hb⟩

lemma sl_take (xs : List ℚ) (m a b : ℕ) (h : b ≤ m) : sl (xs.take m) a b = sl xs a b := by
  unfold sl
  rw [List.drop_take, List.take_take, min_eq_left (by omega)]

lemma getD_take (xs : List ℚ) (m n : ℕ) (h : n < m) :
    (xs.take m).getD n 0 = xs.getD n 0 := by
  rcases lt_or_ge n xs.length with hl | hl
  · rw [List.getD_eq_getElem _ _ (by simp; omega), List.getD_eq_getElem _ _ hl,
      List.getElem_take]
  · rw [List.getD_eq_default _ _ (by simp; omega), List.getD_eq_default _ _ hl]

lemma foldl_congr_on {α β : Type} (l : List α) (f g : β → α → β) (b : β)
    (h : ∀ a ∈ l, ∀ st, f st a = g st a) : l.foldl f b = l.foldl g b := by
  induction l generalizing b with
  | nil => rfl
  | cons x l ih =>
    rw [List.foldl_cons, List.foldl_cons, h x (by simp)]
    exact ih _ (fun a ha st => h a (by simp [ha]) st)

lemma dec_L1_trunc (data g : List ℚ) :
    dec_L1 data g = dec_L1 (data.take (16 * (data.length / 16))) g := by
  have hmle : 16 * (data.length / 16) ≤ data.length := by
    rw [Nat.mul_comm]
    exact Nat.div_mul_le_self _ _
  have hq2 : (data.take (16 * (data.length / 16))).length / 16 = data.length / 16 := by
    rw [List.length_take, min_eq_left hmle, Nat.mul_div_cancel_left _ (by norm_num)]
  show (((List.range (data.length / 16)).drop 1).foldl
      (fun st i => dec_L1_step g st (sl data (i * 16) ((i + 1) * 16))) (sl data 9 16, [])).2
    = (((List.range ((data.take (16 * (data.length / 16))).length / 16)).drop 1).foldl
      (fun st i => dec_L1_step g st
        (sl (data.take (16 * (data.length / 16))) (i * 16) ((i + 1) * 16)))
      (sl (data.take (16 * (data.length / 16))) 9 16, [])).2
  rw [hq2]
  rcases Nat.eq_zero_or_pos (data.length / 16) with h0 | hpos
  · simp [h0]
  · rw [sl_take data (16 * (data.length / 16)) 9 16 (by omega)]
    refine congrArg Prod.snd (foldl_congr_on _ _ _ _ ?_)
    intro i hi st
    have hi2 : i < data.length / 16 := by
      have := List.drop_subset 1 (List.range (data.length / 16)) hi
      exact List.mem_range.1 this
    rw [sl_take data (16 * (data.length / 16)) (i * 16) ((i + 1) * 16) (by omega)]

lemma dec_L2_trunc (data g : List ℚ) :
    dec_L2 data g = dec_L2 (data.take (8 * (data.length / 8))) g := by
  have hmle : 8 * (data.length / 8) ≤ data.length := by
    rw [Nat.mul_comm]
    exact Nat.div_mul_le_self _ _
  have hq2 : (data.take (8 * (data.length / 8))).length / 8 = data.length / 8 := by
    rw [List.length_take, min_eq_left hmle, Nat.mul_div_cancel_left _ (by norm_num)]
  show (((List.range (data.length / 8)).drop 1).foldl
      (fun st i => dec_L2_step g st (sl data (i * 8) ((i + 1) * 8))) (sl data 1 8, [])).2
    = (((List.range ((data.take (8 * (data.length / 8))).length / 8)).drop 1).foldl
      (fun st i => dec_L2_step g st
        (sl (data.take (8 * (data.length / 8))) (i * 8) ((i + 1) * 8)))
      (sl (data.take (8 * (data.length / 8))) 1 8, [])).2
  rw [hq2]
  rcases Nat.eq_zero_or_pos (data.length / 8) with h0 | hpos
  · simp [h0]
  · rw [sl_take data (8 * (data.length / 8)) 1 8 (by omega)]
    refine congrArg Prod.snd (foldl_congr_on _ _ _ _ ?_)
    intro i hi st
    have hi2 : i < data.length / 8 := List.mem_range.1 (List.drop_subset _ _ hi)
    rw [sl_take data (8 * (data.length / 8)) (i * 8) ((i + 1) * 8) (by omega)]

lemma dec_L3_trunc (data g : List ℚ) :
    dec_L3 data g = dec_L3 (data.take (4 * (data.length / 4))) g := by
  have hmle : 4 * (data.length / 4) ≤ data.length := by
    rw [Nat.mul_comm]
    exact Nat.div_mul_le_self _ _
  have hq2 : (data.take (4 * (data.length / 4))).length / 4 = data.length / 4 := by
    rw [List.length_take, min_eq_left hmle, Nat.mul_div_cancel_left _ (by norm_num)]
  show (((List.range (data.length / 4)).drop 2).foldl
      (fun st i => dec_L3_step g st (sl data (i * 4) ((i + 1) * 4))) (sl data 1 8, [])).2
    = (((List.range ((data.take (4 * (data.length / 4))).length / 4)).drop 2).foldl
      (fun st i => dec_L3_step g st
        (sl (data.take (4 * (data.length / 4))) (i * 4) ((i + 1) * 4)))
      (sl (data.take (4 * (data.length / 4))) 1 8, [])).2
  rw [hq2]
  rcases lt_or_ge (data.length / 4) 2 with h0 | hpos
  · have hnil : (List.range (data.length / 4)).drop 2 = [] :=
      List.drop_eq_nil_of_le (by simp; omega)
    rw [hnil]
    rfl
  · rw [sl_take data (4 * (data.length / 4)) 1 8 (by omega)]
    refine congrArg Prod.snd (foldl_congr_on _ _ _ _ ?_)
    intro i hi st
    have hi2 : i < data.length / 4 := List.mem_range.1 (List.drop_subset _ _ hi)
    rw [sl_take data (4 * (data.length / 4)) (i * 4) ((i + 1) * 4) (by omega)]

lemma dec_L4_trunc (data g : List ℚ) :
    dec_L4 data g = dec_L4 (data.take (2 * (data.length / 2))) g := by
  have hmle : 2 * (data.length / 2) ≤ data.length := by
    rw [Nat.mul_comm]
    exact Nat.div_mul_le_self _ _
  have hq2 : (data.take (2 * (data.length / 2))).length / 2 = data.length / 2 := by
    rw [List.length_take, min_eq_left hmle, Nat.mul_div_cancel_left _ (by norm_num)]
  show (((List.range (data.length / 2)).drop 4).foldl
      (fun st i => dec_L4_step g st (sl data (i * 2) ((i + 1) * 2))) (sl data 1 8, [])).2
    = (((List.range ((data.take (2 * (data.length / 2))).length / 2)).drop 4).foldl
      (fun st i => dec_L4_step g st
        (sl (data.take (2 * (data.length / 2))) (i * 2) ((i + 1) * 2)))
      (sl (data.take (2 * (data.length / 2))) 1 8, [])).2
  rw [hq2]
  rcases lt_or_ge (data.length / 2) 4 with h0 | hpos
  · have hnil : (List.range (data.length / 2)).drop 4 = [] :=
      List.drop_eq_nil_of_le (by simp; omega)
    rw [hnil]
    rfl
  · rw [sl_take data (2 * (data.length / 2)) 1 8 (by omega)]
    refine congrArg Prod.snd (foldl_congr_on _ _ _ _ ?_)
    intro i hi st
    have hi2 : i < data.length / 2 := List.mem_range.1 (List.drop_subset _ _ hi)
    rw [sl_take data (2 * (data.length / 2)) (i * 2) ((i + 1) * 2) (by omega)]

lemma res_L1_trunc (data g : List ℚ) :
    res_L1 data g = res_L1 (data.take (8 * (data.length / 8))) g := by
  have hmle : 8 * (data.length / 8) ≤ data.length := by
    rw [Nat.mul_comm]
    exact Nat.div_mul_le_self _ _
  have hq2 : (data.take (8 * (data.length / 8))).length / 8 = data.length / 8 := by
    rw [List.length_take, min_eq_left hmle, Nat.mul_div_cancel_left _ (by norm_num)]
  show (((List.range (data.length / 8)).drop 1).foldl
      (fun st i => (List.range 8).foldl
        (fun st2 j => res_L1_sampleStep g st2 (data.getD (i * 8 + j) 0)) st)
      (sl data 5 8, [])).2
    = (((List.range ((data.take (8 * (data.length / 8))).length / 8)).drop 1).foldl
      (fun st i => (List.range 8).foldl
        (fun st2 j => res_L1_sampleStep g st2
          ((data.take (8 * (data.length / 8))).getD (i * 8 + j) 0)) st)
      (sl (data.take (8 * (data.length / 8))) 5 8, [])).2
  rw [hq2]
  rcases Nat.eq_zero_or_pos (data.length / 8) with h0 | hpos
  · simp [h0]
  · rw [sl_take data (8 * (data.length / 8)) 5 8 (by omega)]
    refine congrArg Prod.snd (foldl_congr_on _ _ _ _ ?_)
    intro i hi st
    have hi2 : i < data.length / 8 := List.mem_range.1 (List.drop_subset _ _ hi)
    refine foldl_congr_on _ _ _ _ ?_
    intro j hj st2
    have hj2 : j < 8 := List.mem_range.1 hj
    rw [getD_take data (8 * (data.length / 8)) (i * 8 + j) (by omega)]

lemma res_L2_trunc (data g : List ℚ) :
    res_L2 data g = res_L2 (data.take (4 * (data.length / 4))) g := by
  have hmle : 4 * (data.length / 4) ≤ data.length := by
    rw [Nat.mul_comm]
    exact Nat.div_mul_le_self _ _
  have hq2 : (data.take (4 * (data.length / 4))).length / 4 = data.length / 4 := by
    rw [List.length_take, min_eq_left hmle, Nat.mul_div_cancel_left _ (by norm_num)]
  show (((List.range (data.length / 4)).drop 1).foldl
      (fun st i => (List.range 4).foldl
        (fun st2 j => res_L2_sampleStep g st2 (data.getD (i * 4 + j) 0)) st)
      (sl data 1 4, [])).2
    = (((List.range ((data.take (4 * (data.length / 4))).length / 4)).drop 1).foldl
      (fun st i => (List.range 4).foldl
        (fun st2 j => res_L2_sampleStep g st2
          ((data.take (4 * (data.length / 4))).getD (i * 4 + j) 0)) st)
      (sl (data.take (4 * (data.length / 4))) 1 4, [])).2
  rw [hq2]
  rcases Nat.eq_zero_or_pos (data.length / 4) with h0 | hpos
  · simp [h0]
  · rw [sl_take data (4 * (data.length / 4)) 1 4 (by omega)]
    refine congrArg Prod.snd (foldl_congr_on _ _ _ _ ?_)
    intro i hi st
    have hi2 : i < data.length / 4 := List.mem_range.1 (List.drop_subset _ _ hi)
    refine foldl_congr_on _ _ _ _ ?_
    intro j hj st2
    have hj2 : j < 4 := List.mem_range.1 hj
    rw [getD_take data (4 * (data.length / 4)) (i * 4 + j) (by omega)]

lemma res_L3_trunc (data g : List ℚ) :
    res_L3 data g = res_L3 (data.take (2 * (data.length / 2))) g := by
  have hmle : 2 * (data.length / 2) ≤ data.length := by
    rw [Nat.mul_comm]
    exact Nat.div_mul_le_self _ _
  have hq2 : (data.take (2 * (data.length / 2))).length / 2 = data.length / 2 := by
    rw [List.length_take, min_eq_left hmle, Nat.mul_div_cancel_left _ (by norm_num)]
  show (((List.range (data.length / 2)).drop 2).foldl
      (fun st i => (List.range 2).foldl
        (fun st2 j => res_L3_sampleStep g st2 (data.getD (i * 2 + j) 0)) st)
      (sl data 1 4, [])).2
    = (((List.range ((data.take (2 * (data.length / 2))).length / 2)).drop 2).foldl
      (fun st i => (List.range 2).foldl
        (fun st2 j => res_L3_sampleStep g st2
          ((data.take (2 * (data.length / 2))).getD (i * 2 + j) 0)) st)
      (sl (data.take (2 * (data.length / 2))) 1 4, [])).2
  rw [hq2]
  rcases lt_or_ge (data.length / 2) 2 with h0 | hpos
  · have hnil : (List.range (data.length / 2)).drop 2 = [] :=
      List.drop_eq_nil_of_le (by simp; omega)
    rw [hnil]
    rfl
  · rw [sl_take data (2 * (data.length / 2)) 1 4 (by omega)]
    refine congrArg Prod.snd (foldl_congr_on _ _ _ _ ?_)
    intro i hi st
    have hi2 : i < data.length / 2 := List.mem_range.1 (List.drop_subset _ _ hi)
    refine foldl_congr_on _ _ _ _ ?_
    intro j hj st2
    have hj2 : j < 2 := List.mem_range.1 hj
    rw [getD_take data (2 * (data.length / 2)) (i * 2 + j) (by omega)]

/-- C8: for every stage, the output on any input equals the output on
the input truncated to the greatest multiple of the stage's block size
— a trailing partial block is silently dropped (in particular for any
input length that is not an exact multiple of the block size). -/
theorem c8_remainder_truncation (data g : List ℚ) :
    dec_L1 data g = dec_L1 (data.take (16 * (data.length / 16))) g ∧
    dec_L2 data g = dec_L2 (data.take (8 * (data.length / 8))) g ∧
    dec_L3 data g = dec_L3 (data.take (4 * (data.length / 4))) g ∧
    dec_L4 data g = dec_L4 (data.take (2 * (data.length / 2))) g ∧
    dec_L5 data g = dec_L5 (data.take (1 * (data.length / 1))) g ∧
    dec_L6 data g = dec_L6 (data.take (1 * (data.length / 1))) g ∧
    dec_L7 data g = dec_L7 (data.take (1 * (data.length / 1))) g ∧
    res_L7 data g = res_L7 (data.take (1 * (data.length / 1))) g ∧
    res_L6 data g = res_L6 (data.take (1 * (data.length / 1))) g ∧
    res_L5 data g = res_L5 (data.take (1 * (data.length / 1))) g ∧
    res_L4 data g = res_L4 (data.take (1 * (data.length / 1))) g ∧
    res_L3 data g = res_L3 (data.take (2 * (data.length / 2))) g ∧
    res_L2 data g = res_L2 (data.take (4 * (data.length / 4))) g ∧
    res_L1 data g = res_L1 (data.take (8 * (data.length / 8))) g := by
  have hone : 1 * (data.length / 1) = data.length := by omega
  have htake : data.take (1 * (data.length / 1)) = data := by
    rw [hone, List.take_length]
  refine ⟨dec_L1_trunc data g, dec_L2_trunc data g, dec_L3_trunc data g, dec_L4_trunc data g,
    ?_, ?_, ?_, ?_, ?_, ?_, ?_, res_L3_trunc data g, res_L2_trunc data g, res_L1_trunc data g⟩
  all_goals rw [htake]

lemma pyRound_abs_le (q : ℚ) : |(pyRound q : ℚ) - q| ≤ 1 / 2 := by
  have hqf : Int.fract q = q - ⌊q⌋ := rfl
  have hf0 : 0 ≤ Int.fract q := Int.fract_nonneg q
  have hf1 : Int.fract q < 1 := Int.fract_lt_one q
  unfold pyRound
  split_ifs with h1 h2 h3
  · rw [abs_le]
    constructor <;> linarith
  · rw [abs_le]
    push_cast
    constructor <;> linarith
  · rw [abs_le]
    constructor <;> linarith
  · rw [abs_le]
    push_cast
    constructor <;> linarith

lemma pyRound_add_int_even (q : ℚ) (n : ℤ) (hn : n % 2 = 0) :
    pyRound (q + n) = pyRound q + n := by
  unfold pyRound
  rw [Int.fract_add_int, Int.floor_add_int]
  split_ifs <;> omega

/-- C5: for any real value x representable without overflow in the
totalBits signed capacity (the rounded scaled value fits the signed
range), dequantize ∘ quantize recovers x to within 2^(−fracBits); and
quantize is periodic with period 2^totalBits ⁄ 2^fracBits — values
outside the range wrap modulo 2^totalBits instead of saturating. -/
theorem c5_quantize_roundtrip (fracBits totalBits : ℕ) (x : ℚ) (ht : 1 ≤ totalBits)
    (hlo : -(2 ^ (totalBits - 1)) ≤ pyRound (x * 2 ^ fracBits))
    (hhi : pyRound (x * 2 ^ fracBits) < 2 ^ (totalBits - 1)) :
    |dequantize fracBits totalBits (quantize fracBits totalBits x) - x|
        ≤ ((2 : ℚ) ^ fracBits)⁻¹ ∧
    ∀ y : ℚ, quantize fracBits totalBits (y + (2 ^ totalBits : ℚ) / (2 ^ fracBits : ℚ))
        = quantize fracBits totalBits y := by
  have h2 : (2 : ℤ) ^ totalBits = 2 * 2 ^ (totalBits - 1) := by
    conv_lhs => rw [show totalBits = (totalBits - 1) + 1 by omega]
    rw [pow_succ]
    ring
  constructor
  · have hstr : str2dec (pyRound (x * 2 ^ fracBits) % 2 ^ totalBits) totalBits
        = pyRound (x * 2 ^ fracBits) := by
      set m := pyRound (x * 2 ^ fracBits) with hm
      rcases le_or_lt 0 m with hm0 | hm0
      · have hmod : m % 2 ^ totalBits = m := Int.emod_eq_of_lt hm0 (by omega)
        rw [hmod]
        unfold str2dec
        rw [if_neg (by omega)]
      · have ha : (m + 2 ^ totalBits) % 2 ^ totalBits = m % 2 ^ totalBits := by
          conv_lhs => rw [show m + 2 ^ totalBits = m + 2 ^ totalBits * 1 by ring]
          exact Int.add_mul_emod_self_left _ _ _
        have hb : (m + 2 ^ totalBits) % 2 ^ totalBits = m + 2 ^ totalBits :=
          Int.emod_eq_of_lt (by omega) (by omega)
        rw [← ha, hb]
        unfold str2dec
        rw [if_pos (by omega)]
        omega
    have hdq : dequantize fracBits totalBits (quantize fracBits totalBits x)
        = (pyRound (x * 2 ^ fracBits) : ℚ) / 2 ^ fracBits := by
      unfold dequantize quantize
      rw [hstr]
    have hF : (0 : ℚ) < 2 ^ fracBits := by positivity
    have habs := pyRound_abs_le (x * 2 ^ fracBits)
    have key : (pyRound (x * 2 ^ fracBits) : ℚ) / 2 ^ fracBits - x
        = ((pyRound (x * 2 ^ fracBits) : ℚ) - x * 2 ^ fracBits) / 2 ^ fracBits := by
      field_simp
      ring
    rw [hdq, key, abs_div, abs_of_pos hF]
    calc |(pyRound (x * 2 ^ fracBits) : ℚ) - x * 2 ^ fracBits| / 2 ^ fracBits
        ≤ (1 / 2) / 2 ^ fracBits := (div_le_div_right hF).2 habs
      _ ≤ ((2 : ℚ) ^ fracBits)⁻¹ := by
          have h12 : (1 / 2 : ℚ) / 2 ^ fracBits ≤ 1 / 2 ^ fracBits :=
            (div_le_div_right hF).2 (by norm_num)
          simpa [one_div] using h12
  · intro y
    unfold quantize
    have hmul : (y + (2 ^ totalBits : ℚ) / (2 ^ fracBits : ℚ)) * 2 ^ fracBits
        = y * 2 ^ fracBits + ((2 ^ totalBits : ℤ) : ℚ) := by
      push_cast
      field_simp
    have hpar : ((2 : ℤ) ^ totalBits) % 2 = 0 := by
      rw [h2]
      omega
    rw [hmul, pyRound_add_int_even _ _ hpar]
    conv_lhs => rw [show pyRound (y * 2 ^ fracBits) + 2 ^ totalBits
      = pyRound (y * 2 ^ fracBits) + 2 ^ totalBits * 1 by ring]
    exact Int.add_mul_emod_self_left _ _ _

/-- Witness for `c5_quantize_roundtrip` at fracBits = 1, totalBits = 3,
x = 3/2 (scaled value 3, inside the signed 3-bit range): the round
trip recovers 3/2 exactly, and quantize wraps with period 2³⁄2¹ = 4. -/
theorem c5_quantize_roundtrip_witness :
    (1 ≤ 3) ∧ (-(2 ^ (3 - 1) : ℤ) ≤ pyRound ((3 / 2 : ℚ) * 2 ^ 1)) ∧
      (pyRound ((3 / 2 : ℚ) * 2 ^ 1) < 2 ^ (3 - 1)) ∧
      |dequantize 1 3 (quantize 1 3 (3 / 2)) - 3 / 2| ≤ ((2 : ℚ) ^ 1)⁻¹ ∧
      quantize 1 3 (0 + (2 ^ 3 : ℚ) / (2 ^ 1 : ℚ)) = quantize 1 3 0 := by
  have h3 : ((3 / 2 : ℚ) * 2 ^ 1) = 3 := by norm_num
  have hfr : Int.fract (3 : ℚ) = 0 := by
    rw [show (3 : ℚ) = ((3 : ℤ) : ℚ) by norm_num]
    exact Int.fract_intCast 3
  have hfl : ⌊(3 : ℚ)⌋ = 3 := by
    rw [show (3 : ℚ) = ((3 : ℤ) : ℚ) by norm_num]
    exact Int.floor_intCast 3
  have hpr : pyRound ((3 / 2 : ℚ) * 2 ^ 1) = 3 := by
    rw [h3]
    unfold pyRound
    rw [hfr, hfl]
    norm_num
  have h := c5_quantize_roundtrip 1 3 (3 / 2) (by norm_num)
    (by rw [hpr]; norm_num) (by rw [hpr]; norm_num)
  exact ⟨by norm_num, by rw [hpr]; norm_num, by rw [hpr]; norm_num, h.1, h.2 0⟩

